import Mathlib

/-!
# eos_sql_db_plugin: ingestion pipeline and action persistence

A shallow embedding of `sql_db_plugin/consumer.hpp` (the four producer queues,
`consumer::queue`, `consumer::shutdown` and the consumer thread `consumer::run`)
and of `sql_db_plugin/db/actions_table.cpp` (`actions_table::add`,
`parse_actions`, `add_data`), followed by the theorems settled on them.

Conventions of the embedding

* `std::deque` is a `List`, front of the deque = head of the list;
  `emplace_back` appends, `pop_front` drops the head.
* `dst = std::move(src)` leaves `src` empty (what every mainstream standard
  library does for `std::deque` with the default allocator).
* The consumer thread and the producer threads interleave.  The consumer
  thread is a state machine over the control points of `run()`; producers and
  `shutdown()` are events.  Everything done while `mtx` is held is one step.
  `condition.wait` is a step that leaves the state as it is: the thread tests
  the condition again at its next step (a notification that arrives before
  the thread sleeps is not lost in the model).
* The locking and sleeping primitives do not raise in the model, so a push
  always reaches `emplace_back`.
* `db->consume_*` is external to the two files: whether a call returns or
  raises is an input of the step that makes the call.
* Log statements (`dlog`, `ilog`, `wlog`, `elog`) have no effect on the state
  and are left out; so is the floating point comparison at lines 180-187 of
  `consumer.hpp`, which only selects a log line.
-/

namespace eosio

/-! ## consumer.hpp -/

section consumer_model

variable {BS TM TT : Type}

/-- The calls `run()` makes on `db`, one constructor per `database::consume_*`
member function used at lines 192, 199, 206 and 212. -/
inductive db_call (BS TM TT : Type) where
  | consume_block_state (bs : BS)
  | consume_irreversible_block_state (bs : BS)
  | consume_transaction_metadata (tm : TM)
  | consume_transaction_trace (tt : TT)
  deriving DecidableEq, Repr

/-- Control points of `consumer::run()`.

* `loop_test`: about to evaluate `while (!exit)` (line 150); the thread starts here.
* `wait_locked`: inside the loop body, at `scoped_lock lock(mtx)` and the inner
  `while (... && !exit) condition.wait(lock)` (lines 151-157).  The step from
  here takes the lock and tests the wait condition; when the thread does not
  wait, the same step moves the queues (lines 159-176) and unlocks.
* `drain_block_state` .. `drain_transaction_trace`: at the head of the four
  drain loops (lines 190, 197, 204, 210).
* `returned`: after the loop or after one of the `catch` handlers
  (lines 218-225); `run()` has returned. -/
inductive run_pc where
  | loop_test
  | wait_locked
  | drain_block_state
  | drain_irreversible_block_state
  | drain_transaction_metadata
  | drain_transaction_trace
  | returned
  deriving DecidableEq, Repr

/-- The data members of `class consumer` (lines 38-49) together with the
control point of the consumer thread and the list of `db` calls made so far. -/
structure consumer (BS TM TT : Type) where
  block_state_queue : List BS
  block_state_process_queue : List BS
  irreversible_block_state_queue : List BS
  irreversible_block_state_process_queue : List BS
  transaction_metadata_queue : List TM
  transaction_metadata_process_queue : List TM
  transaction_trace_queue : List TT
  transaction_trace_process_queue : List TT
  queue_size : Nat
  exit : Bool
  pc : run_pc
  calls : List (db_call BS TM TT)
  deriving DecidableEq, Repr

/-- The constructor `consumer::consumer` (lines 56-60): empty queues,
`exit = false`, and the consumer thread created at the entry of `run()`. -/
def consumer.init (BS TM TT : Type) (queue_size : Nat) : consumer BS TM TT :=
  { block_state_queue := []
    block_state_process_queue := []
    irreversible_block_state_queue := []
    irreversible_block_state_process_queue := []
    transaction_metadata_queue := []
    transaction_metadata_process_queue := []
    transaction_trace_queue := []
    transaction_trace_process_queue := []
    queue_size := queue_size
    exit := false
    pc := run_pc.loop_test
    calls := [] }

/-- The delay computed by `consumer::queue` (lines 76-89).  `size_locked` is
`queue.size()` as read at line 79 with `mtx` held, `size_unlocked` is
`queue.size()` as read at line 82 after `lock.unlock()` (another thread may
have changed the queue in between).  The result is `none` when the push does
not sleep and `some sleep_time` (milliseconds) when it does.  `sleep_time` and
`last_queue_size` are locals of the function, initialised at every call. -/
def queue_sleep_time (queue_size size_locked size_unlocked : Nat) : Option Int :=
  let sleep_time : Int := 100
  let last_queue_size : Nat := 0
  if size_locked > queue_size then
    if last_queue_size < size_unlocked then
      some (sleep_time + 100)
    else
      let sleep_time := sleep_time - 100
      if sleep_time < 0 then some 100 else some sleep_time
  else
    none

/-- The enqueueing part of `consumer::queue` (line 92): once the lock is
held (after the optional sleep) the entry is appended, whatever the length of
the queue is. -/
def queue {α : Type} (q : List α) (e : α) : List α :=
  q ++ [e]

/-- What can happen to a `consumer`: a producer pushes (the four `push_*`
member functions, lines 97-143), `shutdown()` (or the destructor) sets `exit`,
or the consumer thread advances by one step; `raises` tells whether the
`db->consume_*` call made in that step, if any, raises. -/
inductive event (BS TM TT : Type) where
  | push_block_state (bs : BS)
  | push_irreversible_block_state (bs : BS)
  | push_transaction_metadata (tm : TM)
  | push_transaction_trace (tt : TT)
  | shutdown
  | run (raises : Bool)
  deriving DecidableEq, Repr

/-- One step of the thread executing `consumer::run()` (lines 146-226). -/
def run_step (raises : Bool) (c : consumer BS TM TT) : consumer BS TM TT :=
  match c.pc with
  | run_pc.loop_test =>
    -- line 150: `while (!exit)`
    if c.exit then { c with pc := run_pc.returned } else { c with pc := run_pc.wait_locked }
  | run_pc.wait_locked =>
    -- lines 152-157: wait while the four queues are empty and `exit` is not set
    if c.block_state_queue.isEmpty && c.irreversible_block_state_queue.isEmpty &&
        c.transaction_metadata_queue.isEmpty && c.transaction_trace_queue.isEmpty &&
        !c.exit then
      c
    else
      -- lines 159-176: each non-empty queue is moved into its process queue
      { c with
        block_state_process_queue :=
          if c.block_state_queue.length > 0 then c.block_state_queue
          else c.block_state_process_queue
        block_state_queue :=
          if c.block_state_queue.length > 0 then [] else c.block_state_queue
        irreversible_block_state_process_queue :=
          if c.irreversible_block_state_queue.length > 0 then c.irreversible_block_state_queue
          else c.irreversible_block_state_process_queue
        irreversible_block_state_queue :=
          if c.irreversible_block_state_queue.length > 0 then []
          else c.irreversible_block_state_queue
        transaction_metadata_process_queue :=
          if c.transaction_metadata_queue.length > 0 then c.transaction_metadata_queue
          else c.transaction_metadata_process_queue
        transaction_metadata_queue :=
          if c.transaction_metadata_queue.length > 0 then [] else c.transaction_metadata_queue
        transaction_trace_process_queue :=
          if c.transaction_trace_queue.length > 0 then c.transaction_trace_queue
          else c.transaction_trace_process_queue
        transaction_trace_queue :=
          if c.transaction_trace_queue.length > 0 then [] else c.transaction_trace_queue
        pc := run_pc.drain_block_state }
  | run_pc.drain_block_state =>
    -- lines 190-194
    match c.block_state_process_queue with
    | [] => { c with pc := run_pc.drain_irreversible_block_state }
    | bs :: rest =>
      if raises then
        { c with calls := c.calls ++ [db_call.consume_block_state bs], pc := run_pc.returned }
      else
        { c with calls := c.calls ++ [db_call.consume_block_state bs]
                 block_state_process_queue := rest }
  | run_pc.drain_irreversible_block_state =>
    -- lines 197-201
    match c.irreversible_block_state_process_queue with
    | [] => { c with pc := run_pc.drain_transaction_metadata }
    | bs :: rest =>
      if raises then
        { c with calls := c.calls ++ [db_call.consume_irreversible_block_state bs]
                 pc := run_pc.returned }
      else
        { c with calls := c.calls ++ [db_call.consume_irreversible_block_state bs]
                 irreversible_block_state_process_queue := rest }
  | run_pc.drain_transaction_metadata =>
    -- lines 204-208
    match c.transaction_metadata_process_queue with
    | [] => { c with pc := run_pc.drain_transaction_trace }
    | tm :: rest =>
      if raises then
        { c with calls := c.calls ++ [db_call.consume_transaction_metadata tm]
                 pc := run_pc.returned }
      else
        { c with calls := c.calls ++ [db_call.consume_transaction_metadata tm]
                 transaction_metadata_process_queue := rest }
  | run_pc.drain_transaction_trace =>
    -- lines 210-214, then back to the loop test
    match c.transaction_trace_process_queue with
    | [] => { c with pc := run_pc.loop_test }
    | tt :: rest =>
      if raises then
        { c with calls := c.calls ++ [db_call.consume_transaction_trace tt]
                 pc := run_pc.returned }
      else
        { c with calls := c.calls ++ [db_call.consume_transaction_trace tt]
                 transaction_trace_process_queue := rest }
  | run_pc.returned => c

/-- The effect of one event on the consumer. -/
def step (c : consumer BS TM TT) : event BS TM TT → consumer BS TM TT
  | event.push_block_state bs =>
    { c with block_state_queue := queue c.block_state_queue bs }
  | event.push_irreversible_block_state bs =>
    { c with irreversible_block_state_queue := queue c.irreversible_block_state_queue bs }
  | event.push_transaction_metadata tm =>
    { c with transaction_metadata_queue := queue c.transaction_metadata_queue tm }
  | event.push_transaction_trace tt =>
    { c with transaction_trace_queue := queue c.transaction_trace_queue tt }
  | event.shutdown => { c with exit := true }
  | event.run raises => run_step raises c

/-- The consumer after a sequence of events, leftmost first. -/
def exec (c : consumer BS TM TT) (evs : List (event BS TM TT)) : consumer BS TM TT :=
  evs.foldl step c

/-- The consumer thread alone: `n` steps of `run()` in which every
`db->consume_*` call returns. -/
def run_steps (n : Nat) (c : consumer BS TM TT) : consumer BS TM TT :=
  exec c (List.replicate n (event.run false))

/-- The block states pushed by a sequence of events, in push order. -/
def pushed_block_states (evs : List (event BS TM TT)) : List BS :=
  evs.filterMap fun
    | event.push_block_state bs => some bs
    | _ => none

/-- The irreversible block states pushed by a sequence of events, in push order. -/
def pushed_irreversible_block_states (evs : List (event BS TM TT)) : List BS :=
  evs.filterMap fun
    | event.push_irreversible_block_state bs => some bs
    | _ => none

/-- The transaction metadata pushed by a sequence of events, in push order. -/
def pushed_transaction_metadata (evs : List (event BS TM TT)) : List TM :=
  evs.filterMap fun
    | event.push_transaction_metadata tm => some tm
    | _ => none

/-- The transaction traces pushed by a sequence of events, in push order. -/
def pushed_transaction_traces (evs : List (event BS TM TT)) : List TT :=
  evs.filterMap fun
    | event.push_transaction_trace tt => some tt
    | _ => none

/-- Which process buffers are empty at each control point of `run()`: all
four outside the drain loops, and those of the loops already left inside. -/
def buffers_drained (c : consumer BS TM TT) : Prop :=
  match c.pc with
  | run_pc.loop_test | run_pc.wait_locked =>
    c.block_state_process_queue = [] ∧ c.irreversible_block_state_process_queue = [] ∧
      c.transaction_metadata_process_queue = [] ∧ c.transaction_trace_process_queue = []
  | run_pc.drain_block_state => True
  | run_pc.drain_irreversible_block_state => c.block_state_process_queue = []
  | run_pc.drain_transaction_metadata =>
    c.block_state_process_queue = [] ∧ c.irreversible_block_state_process_queue = []
  | run_pc.drain_transaction_trace =>
    c.block_state_process_queue = [] ∧ c.irreversible_block_state_process_queue = [] ∧
      c.transaction_metadata_process_queue = []
  | run_pc.returned => True

/-- The `db` call the next step of `run()` makes, if it makes one: the
front of the process buffer of the drain loop the thread is in. -/
def next_call (c : consumer BS TM TT) : Option (db_call BS TM TT) :=
  match c.pc with
  | run_pc.drain_block_state =>
    c.block_state_process_queue.head?.map db_call.consume_block_state
  | run_pc.drain_irreversible_block_state =>
    c.irreversible_block_state_process_queue.head?.map db_call.consume_irreversible_block_state
  | run_pc.drain_transaction_metadata =>
    c.transaction_metadata_process_queue.head?.map db_call.consume_transaction_metadata
  | run_pc.drain_transaction_trace =>
    c.transaction_trace_process_queue.head?.map db_call.consume_transaction_trace
  | _ => none

/-- The number of steps of the consumer thread among a list of events. -/
def run_count : List (event BS TM TT) → Nat
  | [] => 0
  | event.run _ :: evs => run_count evs + 1
  | _ :: evs => run_count evs

/-- No step of the consumer thread in the list makes a `db` call that raises. -/
def all_return : List (event BS TM TT) → Bool
  | [] => true
  | event.run true :: _ => false
  | _ :: evs => all_return evs

/-- The number of steps `run()` still takes, with `db` calls that return, to
get from a drain loop back to the loop test: one per item left in the buffers
of the loops not yet left, and one emptiness test per such loop. -/
def drain_steps (c : consumer BS TM TT) : Nat :=
  match c.pc with
  | run_pc.drain_block_state =>
    (c.block_state_process_queue.length + 1) +
      (c.irreversible_block_state_process_queue.length + 1) +
      (c.transaction_metadata_process_queue.length + 1) +
      (c.transaction_trace_process_queue.length + 1)
  | run_pc.drain_irreversible_block_state =>
    (c.irreversible_block_state_process_queue.length + 1) +
      (c.transaction_metadata_process_queue.length + 1) +
      (c.transaction_trace_process_queue.length + 1)
  | run_pc.drain_transaction_metadata =>
    (c.transaction_metadata_process_queue.length + 1) +
      (c.transaction_trace_process_queue.length + 1)
  | run_pc.drain_transaction_trace => c.transaction_trace_process_queue.length + 1
  | _ => 0

/-- The `db` calls `run()` still makes before it is back at the loop test:
the buffers of the drain loops not yet left, in the order of the loops. -/
def drain_calls (c : consumer BS TM TT) : List (db_call BS TM TT) :=
  match c.pc with
  | run_pc.drain_block_state =>
    c.block_state_process_queue.map db_call.consume_block_state ++
      c.irreversible_block_state_process_queue.map db_call.consume_irreversible_block_state ++
      c.transaction_metadata_process_queue.map db_call.consume_transaction_metadata ++
      c.transaction_trace_process_queue.map db_call.consume_transaction_trace
  | run_pc.drain_irreversible_block_state =>
    c.irreversible_block_state_process_queue.map db_call.consume_irreversible_block_state ++
      c.transaction_metadata_process_queue.map db_call.consume_transaction_metadata ++
      c.transaction_trace_process_queue.map db_call.consume_transaction_trace
  | run_pc.drain_transaction_metadata =>
    c.transaction_metadata_process_queue.map db_call.consume_transaction_metadata ++
      c.transaction_trace_process_queue.map db_call.consume_transaction_trace
  | run_pc.drain_transaction_trace =>
    c.transaction_trace_process_queue.map db_call.consume_transaction_trace
  | _ => []

end consumer_model

/-! ## db/actions_table.cpp -/

section actions_table_model

/-- A `chain::name` (`account_name`, `action_name`, `permission_name`),
represented by the string `to_string()` gives; `to_string` is injective, so
equality of names is equality of these strings. -/
abbrev name := String

/-- The payload of an action, `std::vector<char>`. -/
abbrev bytes := List Nat

/-- An exception object in flight.  The handlers of the two files select on
the dynamic type only: `catch (fc::exception&)` takes it when `is_fc`,
`catch (std::exception&)` when `is_std`, `catch (...)` always. -/
structure exn where
  is_fc : Bool
  is_std : Bool
  deriving DecidableEq, Repr

/-- What a failing SQL statement raises (`soci::soci_error`, a
`std::runtime_error`). -/
def soci_error : exn := { is_fc := false, is_std := true }

/-- An entry of `action.authorization`: `chain::permission_level`. -/
structure permission_level where
  actor : name
  permission : name
  deriving DecidableEq, Repr

/-- The fields of `chain::action` read by `actions_table`. -/
structure action where
  account : name
  name : name
  authorization : List permission_level
  data : bytes
  deriving DecidableEq, Repr

/-- A public key, represented by the text `static_cast<string>(key)` gives. -/
structure public_key where
  str : String
  deriving DecidableEq, Repr

/-- An entry of `authority.keys`: `chain::key_weight`. -/
structure key_weight where
  key : public_key
  weight : Nat
  deriving DecidableEq, Repr

/-- The part of `chain::authority` read by `parse_actions`. -/
structure authority where
  threshold : Nat
  keys : List key_weight
  deriving DecidableEq, Repr

/-- The unpacked payload of a `newaccount` action: `chain::newaccount`. -/
structure newaccount where
  creator : name
  name : name
  owner : authority
  active : authority
  deriving DecidableEq, Repr

/-- The unpacked payload of a `setabi` action: `chain::setabi`. -/
structure setabi where
  account : name
  abi : bytes
  deriving DecidableEq, Repr

/-- The library functions `actions_table` calls to unpack and render payloads
(`fc::raw`, `fc::json`, `chain::abi_serializer`); `A` stands for
`chain::abi_def`.  Each may raise.

* `data_as_setabi`, `data_as_newaccount`: `action.data_as<T>()`.
* `unpack_abi_def`: `fc::raw::unpack<chain::abi_def>`.
* `abi_to_json`: `fc::json::to_string` on an `abi_def`.
* `abi_from_json`: `fc::json::from_string(text).as<chain::abi_def>()`.
* `binary_to_json`: lines 170-172 of `actions_table.cpp` for a given schema,
  action name and payload (`set_abi`, `get_action_type`, `binary_to_variant`,
  `fc::json::to_string`), all inside one `try` with one handler. -/
structure codec (A : Type) where
  data_as_setabi : bytes → Except exn setabi
  data_as_newaccount : bytes → Except exn newaccount
  unpack_abi_def : bytes → Except exn A
  abi_to_json : A → Except exn String
  abi_from_json : String → Except exn A
  binary_to_json : A → name → bytes → Except exn String

/-- A row of `accounts`, with the columns the two statements of
`actions_table.cpp` on that table touch.  `updated_at` is `none` until an
`UPDATE` sets it to `NOW()`. -/
structure account_row where
  name : String
  abi : Option String
  updated_at : Option Nat
  deriving DecidableEq, Repr

/-- A row of `accounts_keys`. -/
structure account_key_row where
  account : String
  public_key : String
  permission : String
  deriving DecidableEq, Repr

/-- A row of `actions` (lines 21-44), without the columns generated from
`data` and without `parent`, which `add` never sets. -/
structure action_row where
  id : Nat
  account : String
  seq : Nat
  created_at : Nat
  name : String
  data : String
  transaction_id : String
  deriving DecidableEq, Repr

/-- A row of `actions_accounts` (lines 46-54). -/
structure action_account_row where
  id : Nat
  action_id : Nat
  actor : String
  permission : String
  deriving DecidableEq, Repr

/-- The database behind `m_session`: the four tables, the `AUTO_INCREMENT`
counters of `actions` and `actions_accounts`, the connection's
`LAST_INSERT_ID()`, the server clock `NOW()`, and the number of statements
executed so far on the session. -/
structure session where
  accounts : List account_row
  accounts_keys : List account_key_row
  actions : List action_row
  actions_accounts : List action_account_row
  next_action_id : Nat
  next_action_account_id : Nat
  last_insert_id : Nat
  now : Nat
  executed : Nat
  deriving DecidableEq, Repr

/-- The constant `chain::config::system_account_name`, the name `eosio`. -/
def system_account_name : name := "eosio"

/-- The constant `actions_table::newaccount` (line 190). -/
def actions_table.newaccount : name := "newaccount"

/-- The constant `actions_table::setabi` (line 191). -/
def actions_table.setabi : name := "setabi"

/-- The initial value of `json_str` in `add_data` (line 131): an empty JSON object. -/
def empty_json : String := "{}"

/-- The statement `INSERT INTO accounts (name) VALUES (:name)` (line 105).  A statement
raises exactly when `fails` says so for its position in the session, and then
changes no table. -/
def insert_account (fails : Nat → Bool) (s : session) (n : String) :
    Except exn Unit × session :=
  if fails s.executed then
    (Except.error soci_error, { s with executed := s.executed + 1 })
  else
    (Except.ok (), { s with
      accounts := s.accounts ++ [{ name := n, abi := none, updated_at := none }]
      executed := s.executed + 1 })

/-- The statement
`INSERT INTO accounts_keys(account, public_key, permission) VALUES (:ac, :ke, :pe)`
(lines 111 and 120). -/
def insert_account_key (fails : Nat → Bool) (s : session)
    (account public_key permission : String) : Except exn Unit × session :=
  if fails s.executed then
    (Except.error soci_error, { s with executed := s.executed + 1 })
  else
    (Except.ok (), { s with
      accounts_keys := s.accounts_keys ++
        [{ account := account, public_key := public_key, permission := permission }]
      executed := s.executed + 1 })

/-- The statement `UPDATE accounts SET abi = :abi, updated_at = NOW() WHERE name = :name`
(line 147): every row with that name is changed, and no row is added. -/
def update_account_abi (fails : Nat → Bool) (s : session) (abi n : String) :
    Except exn Unit × session :=
  if fails s.executed then
    (Except.error soci_error, { s with executed := s.executed + 1 })
  else
    (Except.ok (), { s with
      accounts := s.accounts.map fun r =>
        if r.name = n then { r with abi := some abi, updated_at := some s.now } else r
      executed := s.executed + 1 })

/-- The text `SELECT abi FROM accounts WHERE name = :name` leaves in
`abi_def_account` (line 165): the `abi` of the first row with that name; the
string stays empty when there is no such row or its `abi` is null. -/
def stored_abi (accounts : List account_row) (n : String) : String :=
  match accounts.find? fun r => r.name = n with
  | some r => r.abi.getD ""
  | none => ""

/-- The `SELECT` statement of line 165 executed on the session. -/
def select_account_abi (fails : Nat → Bool) (s : session) (n : String) :
    Except exn String × session :=
  if fails s.executed then
    (Except.error soci_error, { s with executed := s.executed + 1 })
  else
    (Except.ok (stored_abi s.accounts n), { s with executed := s.executed + 1 })

/-- The statement `INSERT INTO actions(account, seq, created_at, name, data, transaction_id)
VALUES (:ac, :se, FROM_UNIXTIME(:ca), :na, :da, :ti)` (line 76).  The new row
takes the next `AUTO_INCREMENT` id, which becomes `LAST_INSERT_ID()`.  When the
statement raises, the model keeps the counters and `LAST_INSERT_ID()` as they
were (the database leaves that value unspecified after a failing statement);
no theorem below depends on that choice. -/
def insert_action (fails : Nat → Bool) (s : session)
    (account : String) (seq created_at : Nat) (n data transaction_id : String) :
    Except exn Unit × session :=
  if fails s.executed then
    (Except.error soci_error, { s with executed := s.executed + 1 })
  else
    (Except.ok (), { s with
      actions := s.actions ++
        [{ id := s.next_action_id, account := account, seq := seq, created_at := created_at,
           name := n, data := data, transaction_id := transaction_id }]
      next_action_id := s.next_action_id + 1
      last_insert_id := s.next_action_id
      executed := s.executed + 1 })

/-- The statement `INSERT INTO actions_accounts(action_id, actor, permission)
VALUES (LAST_INSERT_ID(), :ac, :pe)` (line 89).  `LAST_INSERT_ID()` is read
before the row is inserted; the row's own `AUTO_INCREMENT` id then becomes the
connection's `LAST_INSERT_ID()`. -/
def insert_action_account (fails : Nat → Bool) (s : session) (actor permission : String) :
    Except exn Unit × session :=
  if fails s.executed then
    (Except.error soci_error, { s with executed := s.executed + 1 })
  else
    (Except.ok (), { s with
      actions_accounts := s.actions_accounts ++
        [{ id := s.next_action_account_id, action_id := s.last_insert_id,
           actor := actor, permission := permission }]
      next_action_account_id := s.next_action_account_id + 1
      last_insert_id := s.next_action_account_id
      executed := s.executed + 1 })

/-- The loops of lines 108-115 and 117-124: one `accounts_keys` row per key,
in list order; an exception leaves the loop. -/
def insert_keys (fails : Nat → Bool) (s : session) (account permission : String) :
    List key_weight → Except exn Unit × session
  | [] => (Except.ok (), s)
  | k :: ks =>
    match insert_account_key fails s account k.key.str permission with
    | (Except.error e, s1) => (Except.error e, s1)
    | (Except.ok (), s1) => insert_keys fails s1 account permission ks

/-- The function `actions_table::parse_actions` (lines 101-127). -/
def actions_table.parse_actions {A : Type} (cd : codec A) (fails : Nat → Bool)
    (s : session) (action : action) : Except exn Unit × session :=
  if action.name = actions_table.newaccount then
    match cd.data_as_newaccount action.data with
    | Except.error e => (Except.error e, s)
    | Except.ok action_data =>
      match insert_account fails s action_data.name with
      | (Except.error e, s1) => (Except.error e, s1)
      | (Except.ok (), s1) =>
        match insert_keys fails s1 action_data.name "owner" action_data.owner.keys with
        | (Except.error e, s2) => (Except.error e, s2)
        | (Except.ok (), s2) =>
          insert_keys fails s2 action_data.name "active" action_data.active.keys
  else
    (Except.ok (), s)

/-- Lines 139-158 of `add_data`, the `setabi` branch inside the outer `try`.
The result is `ok (some json)` when `return json_str` (line 153) is reached,
`ok none` when control goes on to line 160, and `error e` when `e` leaves the
branch towards the outer handlers.  The inner handler (line 154) takes
`fc::exception` only; the `UPDATE` has a `catch (...)` of its own. -/
def actions_table.add_data_setabi {A : Type} (cd : codec A) (fails : Nat → Bool)
    (s : session) (action : action) : Except exn (Option String) × session :=
  if action.account = system_account_name then
    if action.name = actions_table.setabi then
      match cd.data_as_setabi action.data with
      | Except.error e => (Except.error e, s)
      | Except.ok setabi =>
        match cd.unpack_abi_def setabi.abi with
        | Except.error e => if e.is_fc then (Except.ok none, s) else (Except.error e, s)
        | Except.ok abi_def =>
          match cd.abi_to_json abi_def with
          | Except.error e => if e.is_fc then (Except.ok none, s) else (Except.error e, s)
          | Except.ok json_str =>
            match update_account_abi fails s json_str setabi.account with
            | (_, s1) => (Except.ok (some json_str), s1)
    else
      (Except.ok none, s)
  else
    (Except.ok none, s)

/-- Lines 160-178 of `add_data`: read the schema of `action.account` and, when
the text is not empty, decode the payload with it; the inner handler is
`catch (...)`. -/
def actions_table.add_data_decode {A : Type} (cd : codec A) (fails : Nat → Bool)
    (s : session) (action : action) : Except exn (Option String) × session :=
  match select_account_abi fails s action.account with
  | (Except.error e, s1) => (Except.error e, s1)
  | (Except.ok abi_def_account, s1) =>
    if abi_def_account ≠ "" then
      match cd.abi_from_json abi_def_account with
      | Except.error _ => (Except.ok none, s1)
      | Except.ok abi =>
        match cd.binary_to_json abi action.name action.data with
        | Except.error _ => (Except.ok none, s1)
        | Except.ok json_str => (Except.ok (some json_str), s1)
    else
      (Except.ok none, s1)

/-- The function `actions_table::add_data` (lines 130-188).  The outer handlers
(`catch (std::exception&)`, `catch (...)`) take every exception and go on to
`return json_str` at line 187, with `json_str` still as initialised. -/
def actions_table.add_data {A : Type} (cd : codec A) (fails : Nat → Bool)
    (s : session) (action : action) : Except exn String × session :=
  let json_str := empty_json
  if action.data.length = 0 then
    (Except.ok json_str, s)
  else
    match actions_table.add_data_setabi cd fails s action with
    | (Except.ok (some r), s1) => (Except.ok r, s1)
    | (Except.error _, s1) => (Except.ok json_str, s1)
    | (Except.ok none, s1) =>
      match actions_table.add_data_decode cd fails s1 action with
      | (Except.ok (some r), s2) => (Except.ok r, s2)
      | (Except.error _, s2) => (Except.ok json_str, s2)
      | (Except.ok none, s2) => (Except.ok json_str, s2)

/-- The loop of lines 88-92: one `actions_accounts` row per authorization
entry; the statement is not inside a `try`, an exception leaves `add`. -/
def insert_authorizations (fails : Nat → Bool) (s : session) :
    List permission_level → Except exn Unit × session
  | [] => (Except.ok (), s)
  | auth :: rest =>
    match insert_action_account fails s auth.actor auth.permission with
    | (Except.error e, s1) => (Except.error e, s1)
    | (Except.ok (), s1) => insert_authorizations fails s1 rest

/-- The function `actions_table::add` (lines 58-99).  `transaction_id` is the text
`transaction_id.str()`, `transaction_time` is `sec_since_epoch()`.  The uuid
generated at lines 71-73 is used by no statement and is left out. -/
def actions_table.add {A : Type} (cd : codec A) (fails : Nat → Bool) (s : session)
    (action : action) (transaction_id : String) (transaction_time : Nat) (seq : Nat) :
    Except exn Unit × session :=
  if action.name = "onblock" then
    (Except.ok (), s)
  else
    let expiration := transaction_time
    match actions_table.add_data cd fails s action with
    | (Except.error e, s1) => (Except.error e, s1)
    | (Except.ok json, s1) =>
      -- lines 75-86: the handler is `catch (...)`, it logs and goes on
      match insert_action fails s1 action.account seq expiration action.name json
          transaction_id with
      | (_, s2) =>
        match insert_authorizations fails s2 action.authorization with
        | (Except.error e, s3) => (Except.error e, s3)
        | (Except.ok (), s3) =>
          -- lines 94-98: the handler takes `std::exception` only
          match actions_table.parse_actions cd fails s3 action with
          | (Except.error e, s4) =>
            if e.is_std then (Except.ok (), s4) else (Except.error e, s4)
          | (Except.ok (), s4) => (Except.ok (), s4)

/-- The `accounts_keys` rows the loops of lines 108-124 insert for one
permission group: one per key, in list order. -/
def key_rows (account permission : String) (keys : List key_weight) : List account_key_row :=
  keys.map fun k => { account := account, public_key := k.key.str, permission := permission }

/-- The text an example schema renders to. -/
def example_abi_json : String := "\x7b\"version\":\"eosio::abi/1.0\"\x7d"

/-- The payload of the example `newaccount` action once unpacked: account
`alice` with one owner key `K1` and one active key `K2`. -/
def example_newaccount : newaccount :=
  { creator := "eosio"
    name := "alice"
    owner := { threshold := 1, keys := [{ key := { str := "K1" }, weight := 1 }] }
    active := { threshold := 1, keys := [{ key := { str := "K2" }, weight := 1 }] } }

/-- A codec for evaluating the functions on examples.  Every payload unpacks
as the `setabi` of account `alice` carrying the payload as schema bytes, and
as `example_newaccount`; every schema renders to `example_abi_json` and is
read back as the character codes of its text; decoding a payload against a
schema raises. -/
def example_codec : codec bytes :=
  { data_as_setabi := fun d => Except.ok { account := "alice", abi := d }
    data_as_newaccount := fun _ => Except.ok example_newaccount
    unpack_abi_def := fun b => Except.ok b
    abi_to_json := fun _ => Except.ok example_abi_json
    abi_from_json := fun s => Except.ok (s.toList.map Char.toNat)
    binary_to_json := fun _ _ _ => Except.error soci_error }

/-- A database with empty tables: counters at 1, `LAST_INSERT_ID()` at 0. -/
def empty_session : session :=
  { accounts := []
    accounts_keys := []
    actions := []
    actions_accounts := []
    next_action_id := 1
    next_action_account_id := 1
    last_insert_id := 0
    now := 1000
    executed := 0 }

/-- A database in which a `transfer` of `bob` is already recorded as action 1
with its authorization row 1, the last row inserted. -/
def example_session : session :=
  { accounts := [{ name := "bob", abi := none, updated_at := none }]
    accounts_keys := []
    actions := [{ id := 1, account := "bob", seq := 0, created_at := 900, name := "transfer",
                  data := empty_json, transaction_id := "t0" }]
    actions_accounts := [{ id := 1, action_id := 1, actor := "bob", permission := "active" }]
    next_action_id := 2
    next_action_account_id := 2
    last_insert_id := 1
    now := 1000
    executed := 0 }

end actions_table_model

/-! ## Theorems on consumer.hpp -/

section consumer_theorems

variable {BS TM TT : Type}

@[simp] theorem exec_nil (c : consumer BS TM TT) : exec c [] = c := rfl

@[simp] theorem exec_cons (c : consumer BS TM TT) (e : event BS TM TT)
    (evs : List (event BS TM TT)) : exec c (e :: evs) = exec (step c e) evs := rfl

@[simp] theorem run_steps_zero (c : consumer BS TM TT) : run_steps 0 c = c := rfl

theorem run_steps_succ (n : Nat) (c : consumer BS TM TT) :
    run_steps (n + 1) c = run_steps n (run_step false c) := rfl

theorem run_steps_add (a b : Nat) (c : consumer BS TM TT) :
    run_steps (a + b) c = run_steps b (run_steps a c) := by
  simp only [run_steps, exec, List.replicate_add, List.foldl_append]

/-- The first drain loop alone: from its head, as many steps as the buffer
has items, plus the final emptiness test, hand every item to
`consume_block_state` in order and reach the second loop. -/
theorem run_steps_drain_block_state (l : List BS) (c : consumer BS TM TT)
    (hpc : c.pc = run_pc.drain_block_state) (hq : c.block_state_process_queue = l) :
    run_steps (l.length + 1) c =
      { c with calls := c.calls ++ l.map db_call.consume_block_state
               block_state_process_queue := []
               pc := run_pc.drain_irreversible_block_state } := by
  induction l generalizing c with
  | nil =>
    cases c
    simp only at hpc hq
    subst hpc hq
    simp [run_steps_succ, run_step]
  | cons x rest ih =>
    cases c
    simp only at hpc hq
    subst hpc hq
    rw [List.length_cons, run_steps_succ]
    simp only [run_step]
    rw [ih _ rfl rfl]
    simp

/-- The second drain loop alone. -/
theorem run_steps_drain_irreversible_block_state (l : List BS) (c : consumer BS TM TT)
    (hpc : c.pc = run_pc.drain_irreversible_block_state)
    (hq : c.irreversible_block_state_process_queue = l) :
    run_steps (l.length + 1) c =
      { c with calls := c.calls ++ l.map db_call.consume_irreversible_block_state
               irreversible_block_state_process_queue := []
               pc := run_pc.drain_transaction_metadata } := by
  induction l generalizing c with
  | nil =>
    cases c
    simp only at hpc hq
    subst hpc hq
    simp [run_steps_succ, run_step]
  | cons x rest ih =>
    cases c
    simp only at hpc hq
    subst hpc hq
    rw [List.length_cons, run_steps_succ]
    simp only [run_step]
    rw [ih _ rfl rfl]
    simp

/-- The third drain loop alone. -/
theorem run_steps_drain_transaction_metadata (l : List TM) (c : consumer BS TM TT)
    (hpc : c.pc = run_pc.drain_transaction_metadata)
    (hq : c.transaction_metadata_process_queue = l) :
    run_steps (l.length + 1) c =
      { c with calls := c.calls ++ l.map db_call.consume_transaction_metadata
               transaction_metadata_process_queue := []
               pc := run_pc.drain_transaction_trace } := by
  induction l generalizing c with
  | nil =>
    cases c
    simp only at hpc hq
    subst hpc hq
    simp [run_steps_succ, run_step]
  | cons x rest ih =>
    cases c
    simp only at hpc hq
    subst hpc hq
    rw [List.length_cons, run_steps_succ]
    simp only [run_step]
    rw [ih _ rfl rfl]
    simp

/-- The fourth drain loop alone; its exit leads back to the loop test. -/
theorem run_steps_drain_transaction_trace (l : List TT) (c : consumer BS TM TT)
    (hpc : c.pc = run_pc.drain_transaction_trace)
    (hq : c.transaction_trace_process_queue = l) :
    run_steps (l.length + 1) c =
      { c with calls := c.calls ++ l.map db_call.consume_transaction_trace
               transaction_trace_process_queue := []
               pc := run_pc.loop_test } := by
  induction l generalizing c with
  | nil =>
    cases c
    simp only at hpc hq
    subst hpc hq
    simp [run_steps_succ, run_step]
  | cons x rest ih =>
    cases c
    simp only at hpc hq
    subst hpc hq
    rw [List.length_cons, run_steps_succ]
    simp only [run_step]
    rw [ih _ rfl rfl]
    simp

/-- The four drain loops in sequence, from the head of the first one. -/
theorem run_steps_drain_all (c : consumer BS TM TT) (hpc : c.pc = run_pc.drain_block_state) :
    run_steps ((c.block_state_process_queue.length + 1) +
        (c.irreversible_block_state_process_queue.length + 1) +
        (c.transaction_metadata_process_queue.length + 1) +
        (c.transaction_trace_process_queue.length + 1)) c =
      { c with
        calls := c.calls ++
          c.block_state_process_queue.map db_call.consume_block_state ++
          c.irreversible_block_state_process_queue.map
            db_call.consume_irreversible_block_state ++
          c.transaction_metadata_process_queue.map db_call.consume_transaction_metadata ++
          c.transaction_trace_process_queue.map db_call.consume_transaction_trace
        block_state_process_queue := []
        irreversible_block_state_process_queue := []
        transaction_metadata_process_queue := []
        transaction_trace_process_queue := []
        pc := run_pc.loop_test } := by
  obtain ⟨q1, p1, q2, p2, q3, p3, q4, p4, qs, ex, pc, calls⟩ := c
  simp only at hpc
  subst hpc
  simp only
  rw [run_steps_add (_ + _ + _) (_ + 1), run_steps_add (_ + _) (_ + 1),
    run_steps_add (_ + 1) (_ + 1),
    run_steps_drain_block_state p1
      ⟨q1, p1, q2, p2, q3, p3, q4, p4, qs, ex, run_pc.drain_block_state, calls⟩ rfl rfl,
    run_steps_drain_irreversible_block_state p2
      ⟨q1, [], q2, p2, q3, p3, q4, p4, qs, ex, run_pc.drain_irreversible_block_state,
        calls ++ p1.map db_call.consume_block_state⟩ rfl rfl,
    run_steps_drain_transaction_metadata p3
      ⟨q1, [], q2, [], q3, p3, q4, p4, qs, ex, run_pc.drain_transaction_metadata,
        calls ++ p1.map db_call.consume_block_state ++
          p2.map db_call.consume_irreversible_block_state⟩ rfl rfl,
    run_steps_drain_transaction_trace p4
      ⟨q1, [], q2, [], q3, [], q4, p4, qs, ex, run_pc.drain_transaction_trace,
        calls ++ p1.map db_call.consume_block_state ++
          p2.map db_call.consume_irreversible_block_state ++
          p3.map db_call.consume_transaction_metadata⟩ rfl rfl]

/-- The swap under the lock (lines 159-176) when the thread does not wait:
every queue is moved into its process buffer when the buffers are empty. -/
theorem run_step_swap (raises : Bool) (c : consumer BS TM TT)
    (hpc : c.pc = run_pc.wait_locked)
    (hgo : c.exit = true ∨ c.block_state_queue ≠ [] ∨ c.irreversible_block_state_queue ≠ [] ∨
      c.transaction_metadata_queue ≠ [] ∨ c.transaction_trace_queue ≠ [])
    (hp1 : c.block_state_process_queue = [])
    (hp2 : c.irreversible_block_state_process_queue = [])
    (hp3 : c.transaction_metadata_process_queue = [])
    (hp4 : c.transaction_trace_process_queue = []) :
    run_step raises c =
      { c with
        block_state_queue := []
        block_state_process_queue := c.block_state_queue
        irreversible_block_state_queue := []
        irreversible_block_state_process_queue := c.irreversible_block_state_queue
        transaction_metadata_queue := []
        transaction_metadata_process_queue := c.transaction_metadata_queue
        transaction_trace_queue := []
        transaction_trace_process_queue := c.transaction_trace_queue
        pc := run_pc.drain_block_state } := by
  obtain ⟨q1, p1, q2, p2, q3, p3, q4, p4, qs, ex, pc, calls⟩ := c
  simp only at hpc hgo hp1 hp2 hp3 hp4
  subst hpc hp1 hp2 hp3 hp4
  have hcond : (q1.isEmpty && q2.isEmpty && q3.isEmpty && q4.isEmpty && !ex) = false := by
    rcases hgo with h | h | h | h | h
    · simp [h]
    · cases q1 <;> simp_all
    · cases q2 <;> simp_all
    · cases q3 <;> simp_all
    · cases q4 <;> simp_all
  simp only [run_step, hcond]
  cases q1 <;> cases q2 <;> cases q3 <;> cases q4 <;> simp

/-- Once `run()` has returned nothing touches the call trace, the control
point or the process buffers; later events only fill the queues and set `exit`. -/
theorem exec_returned (c : consumer BS TM TT) (hpc : c.pc = run_pc.returned)
    (evs : List (event BS TM TT)) :
    (exec c evs).pc = run_pc.returned ∧ (exec c evs).calls = c.calls ∧
      (exec c evs).block_state_process_queue = c.block_state_process_queue ∧
      (exec c evs).irreversible_block_state_process_queue =
        c.irreversible_block_state_process_queue ∧
      (exec c evs).transaction_metadata_process_queue = c.transaction_metadata_process_queue ∧
      (exec c evs).transaction_trace_process_queue = c.transaction_trace_process_queue ∧
      (exec c evs).block_state_queue = c.block_state_queue ++ pushed_block_states evs ∧
      (exec c evs).irreversible_block_state_queue =
        c.irreversible_block_state_queue ++ pushed_irreversible_block_states evs ∧
      (exec c evs).transaction_metadata_queue =
        c.transaction_metadata_queue ++ pushed_transaction_metadata evs ∧
      (exec c evs).transaction_trace_queue =
        c.transaction_trace_queue ++ pushed_transaction_traces evs := by
  induction evs generalizing c with
  | nil =>
    simp [hpc, pushed_block_states, pushed_irreversible_block_states,
      pushed_transaction_metadata, pushed_transaction_traces]
  | cons e evs ih =>
    have hs : (step c e).pc = run_pc.returned := by
      cases e <;> simp [step, run_step, hpc]
    have h := ih (step c e) hs
    rw [exec_cons]
    cases e <;>
      simpa [step, run_step, hpc, queue, pushed_block_states, pushed_irreversible_block_states,
        pushed_transaction_metadata, pushed_transaction_traces] using h

set_option maxHeartbeats 4000000 in
/-- One event inside the drain phase of a cycle, other than a step whose `db`
call raises: a push or a shutdown request leaves the thread where it is, a
step of the thread makes the next of the remaining calls or leaves a loop. -/
theorem cycle_step (c : consumer BS TM TT) (e : event BS TM TT)
    (hw : c.pc ≠ run_pc.wait_locked) (hr : c.pc ≠ run_pc.returned)
    (hb : buffers_drained c) (hret : all_return [e] = true)
    (hcount : run_count [e] ≤ drain_steps c) :
    (step c e).pc ≠ run_pc.wait_locked ∧ (step c e).pc ≠ run_pc.returned ∧
      buffers_drained (step c e) ∧
      drain_steps (step c e) + run_count [e] = drain_steps c ∧
      (step c e).calls ++ drain_calls (step c e) = c.calls ++ drain_calls c ∧
      (step c e).block_state_queue = c.block_state_queue ++ pushed_block_states [e] ∧
      (step c e).irreversible_block_state_queue =
        c.irreversible_block_state_queue ++ pushed_irreversible_block_states [e] ∧
      (step c e).transaction_metadata_queue =
        c.transaction_metadata_queue ++ pushed_transaction_metadata [e] ∧
      (step c e).transaction_trace_queue =
        c.transaction_trace_queue ++ pushed_transaction_traces [e] := by
  obtain ⟨q1, p1, q2, p2, q3, p3, q4, p4, qs, ex, pc, calls⟩ := c
  simp only at hw hr
  cases e with
  | run raises =>
    cases raises
    case true => simp [all_return] at hret
    case false =>
      cases pc
      case wait_locked => exact absurd rfl hw
      case returned => exact absurd rfl hr
      case loop_test => simp [run_count, drain_steps] at hcount
      case drain_block_state =>
        cases p1 <;>
          simp_all [step, run_step, buffers_drained, drain_steps, drain_calls, run_count,
            pushed_block_states, pushed_irreversible_block_states,
            pushed_transaction_metadata, pushed_transaction_traces] <;> omega
      case drain_irreversible_block_state =>
        cases p2 <;>
          simp_all [step, run_step, buffers_drained, drain_steps, drain_calls, run_count,
            pushed_block_states, pushed_irreversible_block_states,
            pushed_transaction_metadata, pushed_transaction_traces] <;> omega
      case drain_transaction_metadata =>
        cases p3 <;>
          simp_all [step, run_step, buffers_drained, drain_steps, drain_calls, run_count,
            pushed_block_states, pushed_irreversible_block_states,
            pushed_transaction_metadata, pushed_transaction_traces] <;> omega
      case drain_transaction_trace =>
        cases p4 <;>
          simp_all [step, run_step, buffers_drained, drain_steps, drain_calls, run_count,
            pushed_block_states, pushed_irreversible_block_states,
            pushed_transaction_metadata, pushed_transaction_traces]
  | _ =>
    cases pc <;>
      simp_all [step, queue, buffers_drained, drain_steps, drain_calls, run_count,
        pushed_block_states, pushed_irreversible_block_states,
        pushed_transaction_metadata, pushed_transaction_traces]

/-- The steps of the thread in a list of events, counted event by event. -/
theorem run_count_cons (e : event BS TM TT) (evs : List (event BS TM TT)) :
    run_count (e :: evs) = run_count [e] + run_count evs := by
  cases e <;> simp [run_count, Nat.add_comm]

/-- A list of events has no raising call when its head and its tail have none. -/
theorem all_return_cons (e : event BS TM TT) (evs : List (event BS TM TT)) :
    all_return (e :: evs) = (all_return [e] && all_return evs) := by
  cases e with
  | run raises => cases raises <;> simp [all_return]
  | _ => simp [all_return]

/-- The drain phase of a cycle under interleaving.  From a drain loop (or the
loop test, with nothing left to do), let pushes, shutdown requests and steps of
the thread whose `db` calls return follow in any order, the steps being as many
as the drain still needs: the thread ends at the loop test, the calls made are
the remaining buffers in the order of the loops, the four buffers are empty,
and the queues have grown by exactly what was pushed. -/
theorem cycle_exec (evs : List (event BS TM TT)) (c : consumer BS TM TT)
    (hw : c.pc ≠ run_pc.wait_locked) (hr : c.pc ≠ run_pc.returned)
    (hb : buffers_drained c) (hret : all_return evs = true)
    (hcount : run_count evs = drain_steps c) :
    (exec c evs).pc = run_pc.loop_test ∧
      (exec c evs).calls = c.calls ++ drain_calls c ∧
      (exec c evs).block_state_process_queue = [] ∧
      (exec c evs).irreversible_block_state_process_queue = [] ∧
      (exec c evs).transaction_metadata_process_queue = [] ∧
      (exec c evs).transaction_trace_process_queue = [] ∧
      (exec c evs).block_state_queue = c.block_state_queue ++ pushed_block_states evs ∧
      (exec c evs).irreversible_block_state_queue =
        c.irreversible_block_state_queue ++ pushed_irreversible_block_states evs ∧
      (exec c evs).transaction_metadata_queue =
        c.transaction_metadata_queue ++ pushed_transaction_metadata evs ∧
      (exec c evs).transaction_trace_queue =
        c.transaction_trace_queue ++ pushed_transaction_traces evs := by
  induction evs generalizing c with
  | nil =>
    obtain ⟨q1, p1, q2, p2, q3, p3, q4, p4, qs, ex, pc, calls⟩ := c
    simp only at hw hr
    cases pc
    case wait_locked => exact absurd rfl hw
    case returned => exact absurd rfl hr
    case loop_test =>
      simp_all [buffers_drained, drain_calls, pushed_block_states,
        pushed_irreversible_block_states, pushed_transaction_metadata,
        pushed_transaction_traces]
    all_goals
      simp only [run_count, drain_steps] at hcount
      omega
  | cons e evs ih =>
    rw [all_return_cons, Bool.and_eq_true] at hret
    rw [run_count_cons] at hcount
    obtain ⟨hw2, hr2, hb2, hsteps, hcalls, hq1, hq2, hq3, hq4⟩ :=
      cycle_step c e hw hr hb hret.1 (by omega)
    obtain ⟨i1, i2, i3, i4, i5, i6, i7, i8, i9, i10⟩ :=
      ih (step c e) hw2 hr2 hb2 hret.2 (by omega)
    have e1 : pushed_block_states (e :: evs) =
        pushed_block_states [e] ++ pushed_block_states evs := by
      rw [← List.singleton_append]
      simp only [pushed_block_states, List.filterMap_append]
    have e2 : pushed_irreversible_block_states (e :: evs) =
        pushed_irreversible_block_states [e] ++ pushed_irreversible_block_states evs := by
      rw [← List.singleton_append]
      simp only [pushed_irreversible_block_states, List.filterMap_append]
    have e3 : pushed_transaction_metadata (e :: evs) =
        pushed_transaction_metadata [e] ++ pushed_transaction_metadata evs := by
      rw [← List.singleton_append]
      simp only [pushed_transaction_metadata, List.filterMap_append]
    have e4 : pushed_transaction_traces (e :: evs) =
        pushed_transaction_traces [e] ++ pushed_transaction_traces evs := by
      rw [← List.singleton_append]
      simp only [pushed_transaction_traces, List.filterMap_append]
    rw [exec_cons]
    refine ⟨i1, ?_, i3, i4, i5, i6, ?_, ?_, ?_, ?_⟩
    · rw [i2, hcalls]
    · rw [i7, hq1, e1, List.append_assoc]
    · rw [i8, hq2, e2, List.append_assoc]
    · rw [i9, hq3, e3, List.append_assoc]
    · rw [i10, hq4, e4, List.append_assoc]

/-- Claim C2, as the code has it (cycle order).  Take the consumer thread inside
the loop body of `run()`, about to lock `mtx` (lines 151-157), with all four
producer queues non-empty and all four process buffers empty.  The thread
swaps the queues; then pushes, shutdown requests and steps of the thread
follow in any order, every `db->consume_*` call returning, until the thread has
made the steps of the four drain loops.  The calls of that cycle are the block
states, then the irreversible block states, then the transaction metadata,
then the transaction traces that were queued at the swap, each queue front to
back, with nothing in between; the cycle ends at the loop test with the four
process buffers empty, and the queues hold exactly what was pushed during the
cycle. -/
theorem cycle_drains_in_fixed_order (c : consumer BS TM TT) (evs : List (event BS TM TT))
    (hpc : c.pc = run_pc.wait_locked)
    (hq1 : c.block_state_queue ≠ [])
    (_hq2 : c.irreversible_block_state_queue ≠ [])
    (_hq3 : c.transaction_metadata_queue ≠ [])
    (_hq4 : c.transaction_trace_queue ≠ [])
    (hp1 : c.block_state_process_queue = [])
    (hp2 : c.irreversible_block_state_process_queue = [])
    (hp3 : c.transaction_metadata_process_queue = [])
    (hp4 : c.transaction_trace_process_queue = [])
    (hret : all_return evs = true)
    (hcount : run_count evs = (c.block_state_queue.length + 1) +
        (c.irreversible_block_state_queue.length + 1) +
        (c.transaction_metadata_queue.length + 1) +
        (c.transaction_trace_queue.length + 1)) :
    (exec c (event.run false :: evs)).pc = run_pc.loop_test ∧
      (exec c (event.run false :: evs)).calls = c.calls ++
        c.block_state_queue.map db_call.consume_block_state ++
        c.irreversible_block_state_queue.map db_call.consume_irreversible_block_state ++
        c.transaction_metadata_queue.map db_call.consume_transaction_metadata ++
        c.transaction_trace_queue.map db_call.consume_transaction_trace ∧
      (exec c (event.run false :: evs)).block_state_process_queue = [] ∧
      (exec c (event.run false :: evs)).irreversible_block_state_process_queue = [] ∧
      (exec c (event.run false :: evs)).transaction_metadata_process_queue = [] ∧
      (exec c (event.run false :: evs)).transaction_trace_process_queue = [] ∧
      (exec c (event.run false :: evs)).block_state_queue = pushed_block_states evs ∧
      (exec c (event.run false :: evs)).irreversible_block_state_queue =
        pushed_irreversible_block_states evs ∧
      (exec c (event.run false :: evs)).transaction_metadata_queue =
        pushed_transaction_metadata evs ∧
      (exec c (event.run false :: evs)).transaction_trace_queue =
        pushed_transaction_traces evs := by
  have hswap : step c (event.run false) = _ :=
    run_step_swap false c hpc (Or.inr (Or.inl hq1)) hp1 hp2 hp3 hp4
  have h := cycle_exec evs (step c (event.run false))
    (by rw [hswap]; simp) (by rw [hswap]; simp) (by rw [hswap]; simp [buffers_drained])
    hret (by rw [hswap]; simpa [drain_steps] using hcount)
  rw [exec_cons]
  rw [hswap] at h ⊢
  simpa [drain_calls, List.append_assoc] using h

/-- Witness of C2 as the code has it: one block state, two irreversible block
states, one transaction metadata and one transaction trace are queued; during
the cycle block state 9 and transaction trace 8 are pushed and shutdown is
requested.  The calls are 1, 2, 3, 4, 5 in the fixed order. -/
theorem cycle_drains_in_fixed_order_witness :
    (exec ({ consumer.init Nat Nat Nat 8 with
              block_state_queue := [1]
              irreversible_block_state_queue := [2, 3]
              transaction_metadata_queue := [4]
              transaction_trace_queue := [5]
              pc := run_pc.wait_locked } : consumer Nat Nat Nat)
        (event.run false ::
          [event.run false, event.push_block_state 9, event.run false, event.run false,
            event.run false, event.push_transaction_trace 8, event.run false,
            event.shutdown, event.run false, event.run false, event.run false,
            event.run false])).calls =
      [] ++ [1].map db_call.consume_block_state ++
        [2, 3].map db_call.consume_irreversible_block_state ++
        [4].map db_call.consume_transaction_metadata ++
        [5].map db_call.consume_transaction_trace :=
  (cycle_drains_in_fixed_order
    ({ consumer.init Nat Nat Nat 8 with
        block_state_queue := [1]
        irreversible_block_state_queue := [2, 3]
        transaction_metadata_queue := [4]
        transaction_trace_queue := [5]
        pc := run_pc.wait_locked } : consumer Nat Nat Nat)
    [event.run false, event.push_block_state 9, event.run false, event.run false,
      event.run false, event.push_transaction_trace 8, event.run false,
      event.shutdown, event.run false, event.run false, event.run false,
      event.run false]
    rfl (by decide) (by decide) (by decide) (by decide) rfl rfl rfl rfl rfl rfl).2.1

/-- Counterexample to C2 as stated.  All four queues are non-empty (block
states 1 and 2, irreversible block state 3, transaction metadata 4,
transaction trace 5) and the four process buffers are empty.  The thread swaps
the queues and calls `consume_block_state` on 1, which raises.  After ten more
steps of the thread `run()` has returned and the only call of the cycle is the
one on 1: no call on 2, 3, 4 or 5 was made, and the four process buffers are
not empty. -/
theorem cycle_raise_counterexample :
    (exec ({ consumer.init Nat Nat Nat 8 with
              block_state_queue := [1, 2]
              irreversible_block_state_queue := [3]
              transaction_metadata_queue := [4]
              transaction_trace_queue := [5]
              pc := run_pc.wait_locked } : consumer Nat Nat Nat)
        ([event.run false, event.run true] ++ List.replicate 10 (event.run false))).pc =
      run_pc.returned ∧
    (exec ({ consumer.init Nat Nat Nat 8 with
              block_state_queue := [1, 2]
              irreversible_block_state_queue := [3]
              transaction_metadata_queue := [4]
              transaction_trace_queue := [5]
              pc := run_pc.wait_locked } : consumer Nat Nat Nat)
        ([event.run false, event.run true] ++ List.replicate 10 (event.run false))).calls =
      [db_call.consume_block_state 1] ∧
    (exec ({ consumer.init Nat Nat Nat 8 with
              block_state_queue := [1, 2]
              irreversible_block_state_queue := [3]
              transaction_metadata_queue := [4]
              transaction_trace_queue := [5]
              pc := run_pc.wait_locked } : consumer Nat Nat Nat)
        ([event.run false, event.run true] ++ List.replicate 10 (event.run false))
      ).block_state_process_queue = [1, 2] ∧
    (exec ({ consumer.init Nat Nat Nat 8 with
              block_state_queue := [1, 2]
              irreversible_block_state_queue := [3]
              transaction_metadata_queue := [4]
              transaction_trace_queue := [5]
              pc := run_pc.wait_locked } : consumer Nat Nat Nat)
        ([event.run false, event.run true] ++ List.replicate 10 (event.run false))
      ).transaction_trace_process_queue = [5] := by
  refine ⟨rfl, rfl, rfl, rfl⟩

/-- A step whose `db` call raises appends that call to the trace and leaves
`run()` through a handler: nothing is popped. -/
theorem run_step_raise (c : consumer BS TM TT) (x : db_call BS TM TT)
    (h : next_call c = some x) :
    run_step true c = { c with calls := c.calls ++ [x], pc := run_pc.returned } := by
  obtain ⟨q1, p1, q2, p2, q3, p3, q4, p4, qs, ex, pc, calls⟩ := c
  cases pc
  case drain_block_state => cases p1 <;> simp_all [next_call, run_step]
  case drain_irreversible_block_state => cases p2 <;> simp_all [next_call, run_step]
  case drain_transaction_metadata => cases p3 <;> simp_all [next_call, run_step]
  case drain_transaction_trace => cases p4 <;> simp_all [next_call, run_step]
  all_goals simp [next_call] at h

/-- Claim C4, as the code has it.  When the `db->consume_*` call of a step
raises, the error is caught by the handlers around the whole loop of `run()`
and `run()` returns: the failing item is the last one handed to `db`, it is
not popped, the four process buffers keep their content, and whatever happens
afterwards (pushes, shutdown, further steps of the thread) no item is handed
to `db` any more. -/
theorem raise_ends_run (c : consumer BS TM TT) (x : db_call BS TM TT)
    (h : next_call c = some x) (evs : List (event BS TM TT)) :
    (exec c (event.run true :: evs)).pc = run_pc.returned ∧
      (exec c (event.run true :: evs)).calls = c.calls ++ [x] ∧
      (exec c (event.run true :: evs)).block_state_process_queue =
        c.block_state_process_queue ∧
      (exec c (event.run true :: evs)).irreversible_block_state_process_queue =
        c.irreversible_block_state_process_queue ∧
      (exec c (event.run true :: evs)).transaction_metadata_process_queue =
        c.transaction_metadata_process_queue ∧
      (exec c (event.run true :: evs)).transaction_trace_process_queue =
        c.transaction_trace_process_queue := by
  have hs : step c (event.run true) =
      { c with calls := c.calls ++ [x], pc := run_pc.returned } := run_step_raise c x h
  obtain ⟨h1, h2, h3, h4, h5, h6, -⟩ :=
    exec_returned ({ c with calls := c.calls ++ [x], pc := run_pc.returned }) rfl evs
  rw [exec_cons, hs]
  exact ⟨h1, h2, h3, h4, h5, h6⟩

/-- Witness of C4 as the code has it: the thread is draining block states
1 and 2, with irreversible block state 3 behind them; the call on 1 raises and
five more steps of the thread follow. -/
theorem raise_ends_run_witness :
    (exec ({ consumer.init Nat Nat Nat 8 with
              block_state_process_queue := [1, 2]
              irreversible_block_state_process_queue := [3]
              pc := run_pc.drain_block_state } : consumer Nat Nat Nat)
        (event.run true :: List.replicate 5 (event.run false))).calls =
      [] ++ [db_call.consume_block_state 1] :=
  (raise_ends_run
    ({ consumer.init Nat Nat Nat 8 with
        block_state_process_queue := [1, 2]
        irreversible_block_state_process_queue := [3]
        pc := run_pc.drain_block_state } : consumer Nat Nat Nat)
    (db_call.consume_block_state 1) rfl (List.replicate 5 (event.run false))).2.1

/-- Counterexample to C4 as stated.  Block states 1 and 2 and
irreversible block state 3 are pushed, the thread swaps them into its buffers
and calls `consume_block_state` on 1, which raises.  After ten more steps of
the thread `run()` has returned, the only call ever made is the one on 1, and
items 1, 2 and 3 are still in the process buffers: the remaining items were
not processed and the loop did not keep running. -/
theorem raise_skips_rest_counterexample :
    (exec (consumer.init Nat Nat Nat 8)
        ([event.push_block_state 1, event.push_block_state 2,
          event.push_irreversible_block_state 3, event.run false, event.run false,
          event.run true] ++ List.replicate 10 (event.run false))).pc = run_pc.returned ∧
    (exec (consumer.init Nat Nat Nat 8)
        ([event.push_block_state 1, event.push_block_state 2,
          event.push_irreversible_block_state 3, event.run false, event.run false,
          event.run true] ++ List.replicate 10 (event.run false))).calls =
      [db_call.consume_block_state 1] ∧
    (exec (consumer.init Nat Nat Nat 8)
        ([event.push_block_state 1, event.push_block_state 2,
          event.push_irreversible_block_state 3, event.run false, event.run false,
          event.run true] ++ List.replicate 10 (event.run false))).block_state_process_queue =
      [1, 2] ∧
    (exec (consumer.init Nat Nat Nat 8)
        ([event.push_block_state 1, event.push_block_state 2,
          event.push_irreversible_block_state 3, event.run false, event.run false,
          event.run true] ++ List.replicate 10 (event.run false))
      ).irreversible_block_state_process_queue = [3] := by
  refine ⟨rfl, rfl, rfl, rfl⟩

/-- Shutdown requested while the thread waits on the condition (or is about
to test it): with every `db` call returning, the thread swaps the queues, hands
every pending item to `db` in the fixed order and returns. -/
theorem shutdown_while_waiting_drains (c : consumer BS TM TT)
    (hpc : c.pc = run_pc.wait_locked)
    (hp1 : c.block_state_process_queue = [])
    (hp2 : c.irreversible_block_state_process_queue = [])
    (hp3 : c.transaction_metadata_process_queue = [])
    (hp4 : c.transaction_trace_process_queue = []) :
    run_steps (1 + ((c.block_state_queue.length + 1) +
        (c.irreversible_block_state_queue.length + 1) +
        (c.transaction_metadata_queue.length + 1) +
        (c.transaction_trace_queue.length + 1)) + 1) (step c event.shutdown) =
      { c with
        calls := c.calls ++
          c.block_state_queue.map db_call.consume_block_state ++
          c.irreversible_block_state_queue.map db_call.consume_irreversible_block_state ++
          c.transaction_metadata_queue.map db_call.consume_transaction_metadata ++
          c.transaction_trace_queue.map db_call.consume_transaction_trace
        block_state_queue := []
        block_state_process_queue := []
        irreversible_block_state_queue := []
        irreversible_block_state_process_queue := []
        transaction_metadata_queue := []
        transaction_metadata_process_queue := []
        transaction_trace_queue := []
        transaction_trace_process_queue := []
        exit := true
        pc := run_pc.returned } := by
  obtain ⟨q1, p1, q2, p2, q3, p3, q4, p4, qs, ex, pc, calls⟩ := c
  simp only at hpc hp1 hp2 hp3 hp4
  subst hpc hp1 hp2 hp3 hp4
  have e1 : run_steps 1 (step (⟨q1, [], q2, [], q3, [], q4, [], qs, ex, run_pc.wait_locked,
      calls⟩ : consumer BS TM TT) event.shutdown) =
      ⟨[], q1, [], q2, [], q3, [], q4, qs, true, run_pc.drain_block_state, calls⟩ :=
    run_step_swap false
      (⟨q1, [], q2, [], q3, [], q4, [], qs, true, run_pc.wait_locked, calls⟩ :
        consumer BS TM TT) rfl (Or.inl rfl) rfl rfl rfl rfl
  have e2 := run_steps_drain_all
    (⟨[], q1, [], q2, [], q3, [], q4, qs, true, run_pc.drain_block_state, calls⟩ :
      consumer BS TM TT) rfl
  simp only at e2
  simp only
  rw [run_steps_add _ 1, run_steps_add 1, e1, e2]
  simp [run_steps_succ, run_step]

/-- Claim C3 at the failing inputs.  (a) Block state 1 is pushed and swapped
into the process buffer; while the thread is about to drain it, block state 2
is pushed and shutdown is requested.  The thread hands 1 to `db`, leaves the
drain loops, tests `while (!exit)` and returns: 2 is still in
`block_state_queue` and was never handed to `db`.  (b) Shutdown is requested
before the thread has made its first loop test, with block state 1 pending:
`run()` returns without a single `db` call. -/
theorem shutdown_loses_pending_items :
    ((exec (consumer.init Nat Nat Nat 8)
        [event.push_block_state 1, event.run false, event.run false,
          event.push_block_state 2, event.shutdown,
          event.run false, event.run false, event.run false, event.run false,
          event.run false, event.run false]).pc = run_pc.returned ∧
      (exec (consumer.init Nat Nat Nat 8)
        [event.push_block_state 1, event.run false, event.run false,
          event.push_block_state 2, event.shutdown,
          event.run false, event.run false, event.run false, event.run false,
          event.run false, event.run false]).calls = [db_call.consume_block_state 1] ∧
      (exec (consumer.init Nat Nat Nat 8)
        [event.push_block_state 1, event.run false, event.run false,
          event.push_block_state 2, event.shutdown,
          event.run false, event.run false, event.run false, event.run false,
          event.run false, event.run false]).block_state_queue = [2]) ∧
    ((exec (consumer.init Nat Nat Nat 8)
        [event.push_block_state 1, event.shutdown, event.run false]).pc = run_pc.returned ∧
      (exec (consumer.init Nat Nat Nat 8)
        [event.push_block_state 1, event.shutdown, event.run false]).calls = [] ∧
      (exec (consumer.init Nat Nat Nat 8)
        [event.push_block_state 1, event.shutdown, event.run false]).block_state_queue = [1]) := by
  refine ⟨⟨rfl, rfl, rfl⟩, rfl, rfl, rfl⟩

/-- Whenever a push finds its queue over capacity and the queue is not empty
when it is read again, the delay is 200 ms, whatever the capacity, the length
of the queue and the delays of earlier pushes were. -/
theorem queue_sleep_time_overloaded (queue_size size_locked size_unlocked : Nat)
    (h1 : size_locked > queue_size) (h2 : 0 < size_unlocked) :
    queue_sleep_time queue_size size_locked size_unlocked = some 200 := by
  simp [queue_sleep_time, h1, h2]

/-- A push that finds its queue over capacity and then, after the unlock,
finds it emptied by the consumer takes the other branch (lines 84-87): the
delay is 100 - 100 = 0 ms, which the test `sleep_time < 0` does not catch. -/
theorem queue_sleep_time_emptied (queue_size size_locked : Nat)
    (h1 : size_locked > queue_size) :
    queue_sleep_time queue_size size_locked 0 = some 0 := by
  simp [queue_sleep_time, h1]

/-- Claim C10 at the failing input.  Capacity 1; a first push finds the queue
at length 2 and a second push finds it at length 3, both over capacity and the
queue growing: both pushes sleep 200 ms, the second delay is not greater than
the first.  With the queue shrinking from 3 to 2 the two delays are again
200 ms and 200 ms: the second is not smaller. -/
theorem queue_sleep_time_not_adaptive :
    queue_sleep_time 1 2 2 = some 200 ∧ queue_sleep_time 1 3 3 = some 200 := by
  refine ⟨rfl, rfl⟩

end consumer_theorems

/-! ## Theorems on db/actions_table.cpp -/

section actions_table_theorems

variable {A : Type}

/-- The key loop with no failing statement: one row per key, in list order,
appended to `accounts_keys`; nothing else changes but the statement count. -/
theorem insert_keys_ok (fails : Nat → Bool) (account permission : String)
    (keys : List key_weight) (s : session)
    (hok : ∀ i, i < keys.length → fails (s.executed + i) = false) :
    insert_keys fails s account permission keys =
      (Except.ok (), { s with
        accounts_keys := s.accounts_keys ++ key_rows account permission keys
        executed := s.executed + keys.length }) := by
  induction keys generalizing s with
  | nil => simp [insert_keys, key_rows]
  | cons k ks ih =>
    have h0 : fails s.executed = false := by simpa using hok 0 (by simp)
    have hrest : ∀ i, i < ks.length → fails (s.executed + 1 + i) = false := by
      intro i hi
      have := hok (i + 1) (by simpa using hi)
      rwa [show s.executed + 1 + i = s.executed + (i + 1) by omega]
    have hstep : insert_account_key fails s account k.key.str permission =
        (Except.ok (), { s with
          accounts_keys := s.accounts_keys ++
            [{ account := account, public_key := k.key.str, permission := permission }]
          executed := s.executed + 1 }) := by
      simp [insert_account_key, h0]
    rw [insert_keys, hstep]
    simp only
    rw [ih ({ s with
          accounts_keys := s.accounts_keys ++
            [{ account := account, public_key := k.key.str, permission := permission }]
          executed := s.executed + 1 }) hrest]
    simp [key_rows, Nat.add_assoc, Nat.add_comm 1]

/-- Claim C6, as the code has it (account creation).  For an action named
`newaccount` whose payload unpacks to `action_data`, when none of the
`INSERT` statements issued raises,
`parse_actions` appends exactly one row to `accounts`, with the new name and
no schema, and appends to `accounts_keys` one row per owner key with
permission `owner`, in list order, followed by one row per active key with
permission `active`, in list order; the other tables are untouched.  For an
action with any other name `parse_actions` changes nothing and issues no
statement. -/
theorem parse_actions_newaccount (cd : codec A) (fails : Nat → Bool) (s : session)
    (action : action) :
    (∀ action_data : newaccount,
      action.name = "newaccount" →
      cd.data_as_newaccount action.data = Except.ok action_data →
      (∀ i, i < 1 + action_data.owner.keys.length + action_data.active.keys.length →
        fails (s.executed + i) = false) →
      actions_table.parse_actions cd fails s action =
        (Except.ok (), { s with
          accounts := s.accounts ++
            [{ name := action_data.name, abi := none, updated_at := none }]
          accounts_keys := s.accounts_keys ++
            key_rows action_data.name "owner" action_data.owner.keys ++
            key_rows action_data.name "active" action_data.active.keys
          executed := s.executed +
            (1 + action_data.owner.keys.length + action_data.active.keys.length) })) ∧
    (action.name ≠ "newaccount" →
      actions_table.parse_actions cd fails s action = (Except.ok (), s)) := by
  constructor
  · intro action_data hname hdata hok
    have h0 : fails s.executed = false := by simpa using hok 0 (by omega)
    have hown : ∀ i, i < action_data.owner.keys.length →
        fails (s.executed + 1 + i) = false := by
      intro i hi
      have := hok (1 + i) (by omega)
      rwa [show s.executed + 1 + i = s.executed + (1 + i) by omega]
    have hact : ∀ i, i < action_data.active.keys.length →
        fails (s.executed + 1 + action_data.owner.keys.length + i) = false := by
      intro i hi
      have := hok (1 + action_data.owner.keys.length + i) (by omega)
      rwa [show s.executed + 1 + action_data.owner.keys.length + i =
        s.executed + (1 + action_data.owner.keys.length + i) by omega]
    have hstep : insert_account fails s action_data.name =
        (Except.ok (), { s with
          accounts := s.accounts ++
            [{ name := action_data.name, abi := none, updated_at := none }]
          executed := s.executed + 1 }) := by
      simp [insert_account, h0]
    have hk1 := insert_keys_ok fails action_data.name "owner" action_data.owner.keys
      ({ s with
          accounts := s.accounts ++
            [{ name := action_data.name, abi := none, updated_at := none }]
          executed := s.executed + 1 }) hown
    have hk2 := insert_keys_ok fails action_data.name "active" action_data.active.keys
      ({ s with
          accounts := s.accounts ++
            [{ name := action_data.name, abi := none, updated_at := none }]
          accounts_keys := s.accounts_keys ++
            key_rows action_data.name "owner" action_data.owner.keys
          executed := s.executed + 1 + action_data.owner.keys.length }) hact
    simp only [actions_table.parse_actions, actions_table.newaccount, hname, hdata, hstep,
      if_true]
    simp only at hk1 hk2
    rw [hk1]
    simp only
    rw [hk2]
    simp [Nat.add_assoc]
  · intro hname
    simp [actions_table.parse_actions, actions_table.newaccount, hname]

/-- Witness of C6 as the code has it: account `alice` with owner key `K1` and active key
`K2` gives one account row and the key rows (alice, K1, owner),
(alice, K2, active). -/
theorem parse_actions_newaccount_witness :
    actions_table.parse_actions example_codec (fun _ => false) empty_session
        { account := "eosio", name := "newaccount", authorization := [], data := [1] } =
      (Except.ok (), { empty_session with
        accounts := [] ++ [{ name := "alice", abi := none, updated_at := none }]
        accounts_keys := [] ++
          key_rows "alice" "owner" [{ key := { str := "K1" }, weight := 1 }] ++
          key_rows "alice" "active" [{ key := { str := "K2" }, weight := 1 }]
        executed := 0 + (1 + 1 + 1) }) :=
  (parse_actions_newaccount example_codec (fun _ => false) empty_session
    { account := "eosio", name := "newaccount", authorization := [], data := [1] }).1
    example_newaccount rfl rfl (fun _ _ => rfl)

/-- Counterexample to C6 as stated.  The `newaccount` action of `alice` with
owner key `K1` and active key `K2` on empty tables, the third statement (the
`INSERT` of the active key) raising: the statements of lines 105-124 are in no
`try`, so `parse_actions` raises, and the tables hold the account row and the
row (alice, K1, owner) but no row (alice, K2, active): one key row instead of
the two the claim wants. -/
theorem parse_actions_failing_statement_counterexample :
    (actions_table.parse_actions example_codec (fun k => k == 2) empty_session
        { account := "eosio", name := "newaccount", authorization := [], data := [1] }).1 =
      Except.error soci_error ∧
    (actions_table.parse_actions example_codec (fun k => k == 2) empty_session
        { account := "eosio", name := "newaccount", authorization := [], data := [1] }
      ).2.accounts = [{ name := "alice", abi := none, updated_at := none }] ∧
    (actions_table.parse_actions example_codec (fun k => k == 2) empty_session
        { account := "eosio", name := "newaccount", authorization := [], data := [1] }
      ).2.accounts_keys =
      [{ account := "alice", public_key := "K1", permission := "owner" }] := by
  refine ⟨rfl, by decide, by decide⟩

/-- Claim C8, as the code has it.  For an action named `onblock`, `add` returns
at once (line 60): no statement is executed and no table changes; in
particular no row is written to `actions`. -/
theorem add_onblock_skipped (cd : codec A) (fails : Nat → Bool) (s : session)
    (action : action) (transaction_id : String) (transaction_time seq : Nat)
    (hname : action.name = "onblock") :
    actions_table.add cd fails s action transaction_id transaction_time seq =
      (Except.ok (), s) := by
  simp [actions_table.add, hname]

/-- Witness of C8 as the code has it: an `onblock` of `eosio`. -/
theorem add_onblock_skipped_witness :
    actions_table.add example_codec (fun _ => false) example_session
        { account := "eosio", name := "onblock", authorization := [], data := [7] }
        "t1" 950 0 = (Except.ok (), example_session) :=
  add_onblock_skipped example_codec (fun _ => false) example_session
    { account := "eosio", name := "onblock", authorization := [], data := [7] } "t1" 950 0 rfl

/-- Counterexample to C8 as stated: on empty tables, with no failing
statement, `add` of an `onblock` action of `eosio` leaves `actions` empty
where the claim wants exactly one row. -/
theorem add_onblock_counterexample :
    (actions_table.add example_codec (fun _ => false) empty_session
        { account := "eosio", name := "onblock", authorization := [], data := [7] }
        "t1" 950 0).2.actions = [] := by
  rfl

/-- Claim C9 at the failing input.  The database holds one action of `bob`
with its authorization row; `add` is called on a `transfer` of `alice` with
one authorization entry and an empty payload, and its first statement, the
`INSERT` into `actions`, raises.  No row is added to `actions`, and yet the
loop of lines 88-92 runs: `actions_accounts` gains the row (alice, active),
for an action that has no row. -/
theorem add_inserts_authorizations_after_failed_insert :
    (actions_table.add example_codec (fun k => k == 0) example_session
        { account := "alice", name := "transfer",
          authorization := [{ actor := "alice", permission := "active" }], data := [] }
        "t1" 950 0).2.actions = example_session.actions ∧
    (actions_table.add example_codec (fun k => k == 0) example_session
        { account := "alice", name := "transfer",
          authorization := [{ actor := "alice", permission := "active" }], data := [] }
        "t1" 950 0).2.actions_accounts.map (fun r => (r.actor, r.permission)) =
      example_session.actions_accounts.map (fun r => (r.actor, r.permission)) ++
        [("alice", "active")] := by
  refine ⟨by decide, by decide⟩

/-- The authorization loop of lines 88-92 with no failing statement: one row
per authorization entry, in order, appended to `actions_accounts`, whether or
not the `INSERT` into `actions` before it went through; `actions` is untouched. -/
theorem insert_authorizations_ok (fails : Nat → Bool) (auths : List permission_level)
    (s : session) (hok : ∀ i, i < auths.length → fails (s.executed + i) = false) :
    ((insert_authorizations fails s auths).2.actions_accounts.map
        fun r => (r.actor, r.permission)) =
      (s.actions_accounts.map fun r => (r.actor, r.permission)) ++
        auths.map (fun a => (a.actor, a.permission)) ∧
    (insert_authorizations fails s auths).2.executed = s.executed + auths.length ∧
    (insert_authorizations fails s auths).2.actions = s.actions := by
  induction auths generalizing s with
  | nil => simp [insert_authorizations]
  | cons a rest ih =>
    have h0 : fails s.executed = false := by simpa using hok 0 (by simp)
    have hrest : ∀ i, i < rest.length → fails (s.executed + 1 + i) = false := by
      intro i hi
      have := hok (i + 1) (by simpa using hi)
      rwa [show s.executed + 1 + i = s.executed + (i + 1) by omega]
    have hstep : insert_action_account fails s a.actor a.permission =
        (Except.ok (), { s with
          actions_accounts := s.actions_accounts ++
            [{ id := s.next_action_account_id, action_id := s.last_insert_id,
               actor := a.actor, permission := a.permission }]
          next_action_account_id := s.next_action_account_id + 1
          last_insert_id := s.next_action_account_id
          executed := s.executed + 1 }) := by
      simp [insert_action_account, h0]
    have h := ih ({ s with
          actions_accounts := s.actions_accounts ++
            [{ id := s.next_action_account_id, action_id := s.last_insert_id,
               actor := a.actor, permission := a.permission }]
          next_action_account_id := s.next_action_account_id + 1
          last_insert_id := s.next_action_account_id
          executed := s.executed + 1 }) hrest
    rw [insert_authorizations, hstep]
    simp only at h ⊢
    obtain ⟨h1, h2, h3⟩ := h
    refine ⟨?_, ?_, h3⟩
    · rw [h1]
      simp
    · rw [h2, List.length_cons]
      omega

/-- What the `setabi` branch of `add_data` does: either the action is a
`setabi` on the system account whose payload unpacks to a schema that renders
to JSON, and the branch returns that text after the `UPDATE`; or it is not,
and the branch leaves the database as it is, going on to line 160 or raising. -/
theorem add_data_setabi_cases (cd : codec A) (fails : Nat → Bool) (s : session)
    (action : action) :
    (∃ sa abi json, action.account = system_account_name ∧ action.name = "setabi" ∧
      cd.data_as_setabi action.data = Except.ok sa ∧
      cd.unpack_abi_def sa.abi = Except.ok abi ∧ cd.abi_to_json abi = Except.ok json ∧
      actions_table.add_data_setabi cd fails s action =
        (Except.ok (some json), (update_account_abi fails s json sa.account).2)) ∨
    ((∀ sa abi json, ¬(action.account = system_account_name ∧ action.name = "setabi" ∧
        cd.data_as_setabi action.data = Except.ok sa ∧
        cd.unpack_abi_def sa.abi = Except.ok abi ∧ cd.abi_to_json abi = Except.ok json)) ∧
      (actions_table.add_data_setabi cd fails s action = (Except.ok none, s) ∨
        ∃ e, actions_table.add_data_setabi cd fails s action = (Except.error e, s))) := by
  unfold actions_table.add_data_setabi
  by_cases hacc : action.account = system_account_name
  · by_cases hname : action.name = "setabi"
    · cases h1 : cd.data_as_setabi action.data with
      | error e => simp [hacc, hname, actions_table.setabi, h1]
      | ok sa =>
        cases h2 : cd.unpack_abi_def sa.abi with
        | error e =>
          cases hfc : e.is_fc <;> simp [hacc, hname, actions_table.setabi, h1, h2, hfc] <;>
            (intro sa2 abi2 json2 hsa
             subst hsa
             simp_all)
        | ok abi =>
          cases h3 : cd.abi_to_json abi with
          | error e =>
            cases hfc : e.is_fc <;>
              simp [hacc, hname, actions_table.setabi, h1, h2, h3, hfc] <;>
              (intro sa2 abi2 json2 hsa
               subst hsa
               simp_all) <;>
              (intro habi
               subst habi
               simp [h3])
          | ok json =>
            left
            exact ⟨sa, abi, json, hacc, hname, rfl, h2, h3, by
              simp [hacc, hname, actions_table.setabi, h2, h3]⟩
    · simp [hacc, hname, actions_table.setabi]
  · simp [hacc]

/-- With no schema stored for the account of the action, lines 160-178 never
reach `return json_str` at line 173. -/
theorem add_data_decode_no_schema (cd : codec A) (fails : Nat → Bool) (s : session)
    (action : action) (hno : stored_abi s.accounts action.account = "") :
    (actions_table.add_data_decode cd fails s action).1 = Except.ok none ∨
      ∃ e, (actions_table.add_data_decode cd fails s action).1 = Except.error e := by
  unfold actions_table.add_data_decode select_account_abi
  cases hf : fails s.executed <;> simp [hno]

/-- Claim C5, as the code has it.  Let the account of the action have no schema
stored (no row, or a row whose `abi` is null or empty).  `add_data` raises no
error.  It returns exactly `{}` unless the action is a `setabi` on the
system account with a non-empty payload that unpacks to a schema which renders
to JSON; for such an action it returns the JSON text of that schema. -/
theorem add_data_no_schema (cd : codec A) (fails : Nat → Bool) (s : session)
    (action : action) (hno : stored_abi s.accounts action.account = "") :
    ((action.data.length = 0 ∨
        ∀ sa abi json, ¬(action.account = system_account_name ∧ action.name = "setabi" ∧
          cd.data_as_setabi action.data = Except.ok sa ∧
          cd.unpack_abi_def sa.abi = Except.ok abi ∧ cd.abi_to_json abi = Except.ok json)) →
      (actions_table.add_data cd fails s action).1 = Except.ok "{}") ∧
    (∀ sa abi json, action.data.length ≠ 0 → action.account = system_account_name →
      action.name = "setabi" → cd.data_as_setabi action.data = Except.ok sa →
      cd.unpack_abi_def sa.abi = Except.ok abi → cd.abi_to_json abi = Except.ok json →
      (actions_table.add_data cd fails s action).1 = Except.ok json) := by
  constructor
  · intro h
    by_cases hd : action.data.length = 0
    · simp [actions_table.add_data, hd, empty_json]
    · have hnot := h.resolve_left hd
      rcases add_data_setabi_cases cd fails s action with
        ⟨sa, abi, json, h1, h2, h3, h4, h5, -⟩ | ⟨-, hs | ⟨e, hs⟩⟩
      · exact absurd ⟨h1, h2, h3, h4, h5⟩ (hnot sa abi json)
      · rcases add_data_decode_no_schema cd fails s action hno with hdec | ⟨e, hdec⟩
        · simp only [actions_table.add_data, hd, if_false, hs]
          revert hdec
          rcases actions_table.add_data_decode cd fails s action with ⟨r, s2⟩
          intro hdec
          simp only at hdec
          subst hdec
          rfl
        · simp only [actions_table.add_data, hd, if_false, hs]
          revert hdec
          rcases actions_table.add_data_decode cd fails s action with ⟨r, s2⟩
          intro hdec
          simp only at hdec
          subst hdec
          rfl
      · simp [actions_table.add_data, hd, hs, empty_json]
  · intro sa abi json hd hacc hname h1 h2 h3
    simp [actions_table.add_data, actions_table.add_data_setabi, actions_table.setabi, hd,
      hacc, hname, h1, h2, h3]

/-- Witness of C5 as the code has it: a `transfer` of `alice`, who has
no row in `accounts`, with a non-empty payload, decodes to `{}`. -/
theorem add_data_no_schema_witness :
    (actions_table.add_data example_codec (fun _ => false) example_session
        { account := "alice", name := "transfer", authorization := [], data := [1, 2] }).1 =
      Except.ok "{}" :=
  (add_data_no_schema example_codec (fun _ => false) example_session
    { account := "alice", name := "transfer", authorization := [], data := [1, 2] } rfl).1
    (Or.inr fun _ _ _ h => absurd h.1 (by decide))

/-- Counterexample to C5 as stated: `eosio` has no row in `accounts`, so
no schema is stored for the account of the action, and `add_data` of a
`setabi` action of `eosio` returns the JSON text of the schema in the payload,
not `{}`. -/
theorem add_data_no_schema_counterexample :
    stored_abi example_session.accounts "eosio" = "" ∧
    (actions_table.add_data example_codec (fun _ => false) example_session
        { account := "eosio", name := "setabi", authorization := [], data := [1, 2] }).1 =
      Except.ok "\x7b\"version\":\"eosio::abi/1.0\"\x7d" := by
  refine ⟨by decide, rfl⟩

/-- The `SELECT` of line 165 on a table with one more row in front. -/
theorem stored_abi_cons (r : account_row) (l : List account_row) (n : String) :
    stored_abi (r :: l) n = if r.name = n then r.abi.getD "" else stored_abi l n := by
  by_cases h : r.name = n <;> simp [stored_abi, List.find?_cons, h]

/-- The `UPDATE` of line 147 leaves the schema of every other account as it was. -/
theorem stored_abi_update_other (abi n : String) (now : Nat) (other : String)
    (hne : other ≠ n) (l : List account_row) :
    stored_abi (l.map fun r =>
      if r.name = n then { r with abi := some abi, updated_at := some now } else r) other =
      stored_abi l other := by
  induction l with
  | nil => rfl
  | cons r rest ih =>
    rw [List.map_cons, stored_abi_cons, stored_abi_cons, ih]
    by_cases h1 : r.name = n
    · have h2 : ¬ n = other := fun h => hne h.symm
      have h3 : ¬ r.name = other := fun h => hne (h ▸ h1)
      simp [h1, h2, h3]
    · simp [h1]

/-- The `UPDATE` of line 147 stores the schema when the account has a row. -/
theorem stored_abi_update_self (abi n : String) (now : Nat) (l : List account_row)
    (hrow : ∃ r ∈ l, r.name = n) :
    stored_abi (l.map fun r =>
      if r.name = n then { r with abi := some abi, updated_at := some now } else r) n = abi := by
  induction l with
  | nil => simp at hrow
  | cons r rest ih =>
    rw [List.map_cons, stored_abi_cons]
    by_cases h1 : r.name = n
    · simp [h1]
    · have hrest : ∃ r ∈ rest, r.name = n := by
        obtain ⟨x, hx, hxn⟩ := hrow
        rcases List.mem_cons.mp hx with rfl | hx
        · exact absurd hxn h1
        · exact ⟨x, hx, hxn⟩
      simp [h1, ih hrest]

/-- The `UPDATE` of line 147 changes nothing when the account has no row. -/
theorem update_without_row (abi n : String) (now : Nat) (l : List account_row)
    (hrow : ∀ r ∈ l, r.name ≠ n) :
    (l.map fun r =>
      if r.name = n then { r with abi := some abi, updated_at := some now } else r) = l := by
  induction l with
  | nil => rfl
  | cons r rest ih =>
    have h1 : r.name ≠ n := hrow r (List.mem_cons_self _ _)
    have h2 := ih fun x hx => hrow x (List.mem_cons_of_mem _ hx)
    simp only [List.map_cons, h1, if_false, h2]

/-- Claim C7, as the code has it.  Take a `setabi` action on the system account
with a non-empty payload that unpacks to (target account, schema bytes), the
bytes unpacking to a schema that renders to the text `json`.  `add_data`
returns `json`.  When the `UPDATE` does not raise: if the target account has a
row in `accounts`, the schema stored for it afterwards is `json`, whether or
not a schema was stored before; if it has no row, `accounts` is unchanged and
nothing is stored; and the schema stored for every other account is unchanged.
When the `UPDATE` raises, `accounts` is unchanged. -/
theorem add_data_setabi_stores (cd : codec A) (fails : Nat → Bool) (s : session)
    (action : action) (sa : setabi) (abi : A) (json : String)
    (hacc : action.account = system_account_name) (hname : action.name = "setabi")
    (hd : action.data.length ≠ 0)
    (h1 : cd.data_as_setabi action.data = Except.ok sa)
    (h2 : cd.unpack_abi_def sa.abi = Except.ok abi)
    (h3 : cd.abi_to_json abi = Except.ok json) :
    (actions_table.add_data cd fails s action).1 = Except.ok json ∧
    (fails s.executed = false →
      ((∃ r ∈ s.accounts, r.name = sa.account) →
        stored_abi (actions_table.add_data cd fails s action).2.accounts sa.account = json) ∧
      ((∀ r ∈ s.accounts, r.name ≠ sa.account) →
        (actions_table.add_data cd fails s action).2.accounts = s.accounts) ∧
      (∀ other, other ≠ sa.account →
        stored_abi (actions_table.add_data cd fails s action).2.accounts other =
          stored_abi s.accounts other)) ∧
    (fails s.executed = true →
      (actions_table.add_data cd fails s action).2.accounts = s.accounts) := by
  have hres : actions_table.add_data cd fails s action =
      (Except.ok json, (update_account_abi fails s json sa.account).2) := by
    simp [actions_table.add_data, actions_table.add_data_setabi, actions_table.setabi, hd,
      hacc, hname, h1, h2, h3]
  rw [hres]
  refine ⟨rfl, fun hok => ⟨fun hrow => ?_, fun hrow => ?_, fun other hne => ?_⟩, fun hfail => ?_⟩
  · simp only [update_account_abi, hok]
    exact stored_abi_update_self json sa.account s.now s.accounts hrow
  · simp only [update_account_abi, hok]
    exact update_without_row json sa.account s.now s.accounts hrow
  · simp only [update_account_abi, hok]
    exact stored_abi_update_other json sa.account s.now other hne s.accounts
  · simp [update_account_abi, hfail]

/-- Witness of C7 as the code has it: `alice` has a row without schema;
after the `setabi` of `eosio` for `alice` the stored schema is the JSON text. -/
theorem add_data_setabi_stores_witness :
    stored_abi (actions_table.add_data example_codec (fun _ => false)
        { empty_session with accounts := [{ name := "alice", abi := none, updated_at := none }] }
        { account := "eosio", name := "setabi", authorization := [], data := [1, 2] }
      ).2.accounts "alice" = example_abi_json :=
  ((add_data_setabi_stores example_codec (fun _ => false)
    { empty_session with accounts := [{ name := "alice", abi := none, updated_at := none }] }
    { account := "eosio", name := "setabi", authorization := [], data := [1, 2] }
    { account := "alice", abi := [1, 2] } [1, 2] example_abi_json
    rfl rfl (by decide) rfl rfl rfl).2.1 rfl).1
    ⟨{ name := "alice", abi := none, updated_at := none }, List.mem_singleton.mpr rfl, rfl⟩

/-- Counterexample to C7 as stated: `alice` has no row in `accounts`;
the `setabi` of `eosio` for `alice` returns the JSON text of the schema, no
statement raises, and yet `accounts` is still empty and the schema read back
for `alice` is the empty string, not that text. -/
theorem add_data_setabi_counterexample :
    (actions_table.add_data example_codec (fun _ => false) empty_session
        { account := "eosio", name := "setabi", authorization := [], data := [1, 2] }).1 =
      Except.ok "\x7b\"version\":\"eosio::abi/1.0\"\x7d" ∧
    (actions_table.add_data example_codec (fun _ => false) empty_session
        { account := "eosio", name := "setabi", authorization := [], data := [1, 2] }
      ).2.accounts = [] ∧
    stored_abi (actions_table.add_data example_codec (fun _ => false) empty_session
        { account := "eosio", name := "setabi", authorization := [], data := [1, 2] }
      ).2.accounts "alice" = "" := by
  refine ⟨rfl, by decide, by decide⟩

end actions_table_theorems

end eosio
